import Mathlib

/-!
Verification of the knowledge-base similarity search and the AI generation
orchestrator of the website-builder backend
(`src/services/aiKnowledgeBase.js` and `src/services/aiOrchestrator.js`).

The JavaScript source is embedded shallowly:

* JS numbers are modelled as exact rationals (`ℚ`).  The only irrational
  values the code produces come from `Math.sqrt` inside the cosine
  similarity and the embedding normalisation; a similarity value always has
  the shape `n / √r` with `n r : ℚ`, `r > 0`, and we represent it by the
  pair `(n, r)` (structure `Sim`).  All comparisons the JS code performs on
  similarity values (`> 0.1`, `> 0.7`, and the descending sort) are decided
  exactly through the strictly monotone map `x ↦ x·|x|` (see `Sim.key`).
* Mongoose collections are modelled as Lean lists of records; `find` with a
  criteria object becomes `List.filter`; `findById` becomes `List.find?`.
* `async` functions that can throw are modelled with `Except String`;
  functions whose failures are swallowed by their own `try/catch` are total.
* External effects (LLM provider HTTP calls, `KnowledgeEntry.save`) are
  modelled by oracles carried in a context record, and the network calls
  actually attempted are collected in a trace.
-/

/-! ### Character and string helpers (JS primitives used by the source) -/

/-- JS `\w` character class: `[A-Za-z0-9_]` (the source only ever feeds it
ASCII). -/
def isWordChar (c : Char) : Bool := c.isAlpha || c.isDigit || c == '_'

/-- JS `\s` character class restricted to the ASCII whitespace the inputs of
this repository contain (space, tab, newline, carriage return). -/
def isSpaceJS (c : Char) : Bool := c == ' ' || c == '\t' || c == '\n' || c == '\r'

/-- `String.prototype.toLowerCase` on ASCII text. -/
def lowerStr (s : List Char) : List Char := s.map Char.toLower

/-- `String.prototype.trim`: strip leading and trailing whitespace. -/
def trimJS (l : List Char) : List Char :=
  ((l.dropWhile isSpaceJS).reverse.dropWhile isSpaceJS).reverse

/-- Maximal runs of `\w` characters of a string, accumulator-based.
`wordRunsAux s cur` processes `s` with `cur` the reversed run in progress. -/
def wordRunsAux : List Char → List Char → List (List Char)
  | [], cur => if cur.isEmpty then [] else [cur.reverse]
  | c :: cs, cur =>
    if isWordChar c then wordRunsAux cs (c :: cur)
    else if cur.isEmpty then wordRunsAux cs [] else cur.reverse :: wordRunsAux cs []

/-- `text.toLowerCase().split(/\W+/).filter(w => w.length > 2)` from
`generateEmbedding`.  `split(/\W+/)` yields the maximal `\w`-runs (plus
possibly an empty leading string, which the length filter discards). -/
def tokenize (text : String) : List String :=
  ((wordRunsAux (lowerStr text.data) []).map String.mk).filter (fun w => w.length > 2)

/-- First index at which `pat` occurs as a contiguous sublist of `s`
(leftmost match, like `RegExp.exec` finding a literal). -/
def findSub (pat : List Char) : List Char → Option ℕ
  | [] => if pat.isEmpty then some 0 else none
  | c :: cs =>
    if pat.isPrefixOf (c :: cs) then some 0 else (findSub pat cs).map (· + 1)

/-- Index of the last occurrence of `c` in `l`. -/
def lastIdxOf (c : Char) : List Char → Option ℕ
  | [] => none
  | x :: xs =>
    match lastIdxOf c xs with
    | some i => some (i + 1)
    | none => if x == c then some 0 else none

/-- Case-insensitive prefix test; `pat` is given in lowercase. -/
def lowerPrefixIs (pat : List Char) (s : List Char) : Bool :=
  lowerStr (s.take pat.length) == pat

/-- Assoc-list lookup (JS object property access on string keys). -/
def alistGet (l : List (String × String)) (k : String) : Option String :=
  (l.find? (fun p => p.1 == k)).map Prod.snd

/-- JS truthiness of a possibly-absent string: `undefined` and `""` are
falsy.  `jsStrOpt o` is `some s` exactly when `o` holds a truthy string. -/
def jsStrOpt (o : Option String) : Option String :=
  match o with
  | some s => if s == "" then none else some s
  | none => none

/-- JS `x || d` for a possibly-absent string `x` and default `d`. -/
def jsOrStr (o : Option String) (d : String) : String := (jsStrOpt o).getD d

/-- `String.prototype.toUpperCase` on ASCII text. -/
def toUpperStr (s : String) : String := String.mk (s.data.map Char.toUpper)

/-! ### `aiKnowledgeBase.js` — embeddings and similarity

`generateEmbedding` L2-normalises its count vector with `Math.sqrt`, so the
stored JS vector is `counts / √(Σ countsᵢ²)`.  We represent a vector of JS
numbers of the form `coords / √den` by the record `EVec coords den`
(`den = 1` for plain, unnormalised number arrays, e.g. embeddings read back
from the database). -/

/-- A vector of JS numbers, denoting the real vector `coords / √den`
(`den > 0` in every vector the code constructs). -/
structure EVec where
  coords : List ℚ
  den : ℚ
deriving DecidableEq, Repr

/-- A plain number array (denominator `√1`). -/
def rawVec (v : List ℚ) : EVec := ⟨v, 1⟩

/-- Sum of squares of a list of rationals. -/
def sumSq (l : List ℚ) : ℚ := (l.map (fun x => x * x)).sum

/-- Dot product, truncating at the shorter list (only used on lists of equal
length, mirroring the `for` loop bounded by `embedding1.length`). -/
def dotQ : List ℚ → List ℚ → ℚ
  | a :: as, b :: bs => a * b + dotQ as bs
  | _, _ => 0

/-- The fixed 24-term vocabulary of `generateEmbedding`. -/
def vocabulary : List String :=
  ["react", "component", "function", "api", "service", "route", "express",
   "database", "frontend", "backend", "auth", "user", "data", "fetch",
   "state", "props", "hook", "context", "store", "form", "validation",
   "error", "loading", "success"]

/-- `aiKnowledgeBase.generateEmbedding`: tokenize, count occurrences of each
vocabulary term, then L2-normalise; if the magnitude is `0` the raw (zero)
vector is returned unnormalised.  JS divides each count by
`√(Σ countsᵢ²)`; here that division is recorded in the `den` field. -/
def generateEmbedding (text : String) : EVec :=
  let toks := tokenize text
  let embedding : List ℚ := vocabulary.map (fun w => ((toks.count w : ℕ) : ℚ))
  let magSq := sumSq embedding
  if magSq > 0 then ⟨embedding, magSq⟩ else ⟨embedding, 1⟩

/-- An exact representation of a similarity value produced by
`calculateSimilarity`: the real number `num / √rad`, with `rad > 0` for
every value the code constructs (a plain `0` is represented as `⟨0, 1⟩`). -/
structure Sim where
  num : ℚ
  rad : ℚ
deriving DecidableEq, Repr

/-- Order-preserving rational image of the real value `num / √rad`:
`x ↦ x·|x|` is strictly increasing on ℝ and
`(num/√rad)·|num/√rad| = num·|num|/rad`, so every comparison the JS code
performs on similarity values coincides with the same comparison on keys. -/
def Sim.key (s : Sim) : ℚ := s.num * |s.num| / s.rad

/-- Key of a plain rational threshold `t` (so that the real comparison
`sim > t` is exactly `sim.key > simKeyOf t`). -/
def simKeyOf (t : ℚ) : ℚ := t * |t|

/-- `sim > t` on the real scale, decided exactly on keys (`key` is the key
of a similarity value, `t` a rational threshold such as `0.1` or `0.7`). -/
def simGtQ (key t : ℚ) : Bool := decide (key > simKeyOf t)

/-- `sim ≥ t` on the real scale, decided exactly on keys. -/
def simGeQ (key t : ℚ) : Bool := decide (key ≥ simKeyOf t)

/-- `aiKnowledgeBase.calculateSimilarity` on two `EVec`s.  The JS code
computes `dot / (√m1sq · √m2sq)` after checking, in order, (1) equal
lengths, else return `0`; (2) both magnitudes nonzero, else return `0`.
For `EVec`s the scale factors cancel: with `a = ca/√da`, `b = cb/√db`,
`dot(a,b)/(‖a‖·‖b‖) = (Σ caᵢcbᵢ)/√(sumSq ca · sumSq cb)`, and the magnitude
`‖a‖ = √(sumSq ca / da)` is zero iff `sumSq ca = 0` (as `da > 0`).  The
result is returned in the exact `Sim` representation. -/
def calculateSimilarity (e1 e2 : EVec) : Sim :=
  if e1.coords.length ≠ e2.coords.length then ⟨0, 1⟩
  else
    let m1sq := sumSq e1.coords
    let m2sq := sumSq e2.coords
    if m1sq = 0 ∨ m2sq = 0 then ⟨0, 1⟩
    else ⟨dotQ e1.coords e2.coords, m1sq * m2sq⟩

/-! ### `aiKnowledgeBase.js` — the knowledge-entry store -/

/-- The `metadata` sub-document of the `knowledgeEntrySchema` (only the
schema fields; mongoose strict mode drops keys outside the schema). -/
structure KEMeta where
  stack : Option String
  category : Option String
  features : List String
  dependencies : List String
deriving DecidableEq, Repr

/-- A document of the `KnowledgeEntry` mongoose model.  `id` models the
opaque `_id`; `createdAt` is an abstract timestamp. -/
structure KnowledgeEntry where
  id : ℕ
  projectId : ℕ
  userId : String
  codeType : String
  description : String
  code : String
  metadata : KEMeta
  embedding : EVec
  reusageCount : ℕ
  successRate : ℚ
  createdAt : ℕ
deriving DecidableEq, Repr

/-- The optional exact-match filters of `searchSimilarCode`. -/
structure Filters where
  userId : Option String
  codeType : Option String
  stack : Option String
  category : Option String
deriving DecidableEq, Repr

/-- The `searchCriteria` object built by `searchSimilarCode`: each filter
present restricts the corresponding field to an exact match. -/
def matchesCriteria (f : Filters) (e : KnowledgeEntry) : Bool :=
  (match f.userId with | some u => e.userId == u | none => true) &&
  (match f.codeType with | some t => e.codeType == t | none => true) &&
  (match f.stack with | some s => e.metadata.stack == some s | none => true) &&
  (match f.category with | some c => e.metadata.category == some c | none => true)

/-- A search hit: the spread entry plus its similarity, carried on the exact
key scale (see `Sim.key`). -/
structure SearchResult where
  entry : KnowledgeEntry
  similarity : ℚ
deriving DecidableEq, Repr

/-- `KnowledgeEntry.find(searchCriteria).limit(50)`: the bounded brute-force
scan of `searchSimilarCode`. -/
def scannedEntries (f : Filters) (kb : List KnowledgeEntry) : List KnowledgeEntry :=
  (kb.filter (matchesCriteria f)).take 50

/-- The comparator of `.sort((a, b) => b.similarity - a.similarity)`:
element `a` may stay before `b` iff `a.similarity ≥ b.similarity`.  JS
`Array.prototype.sort` is stable, as is `List.mergeSort`. -/
def simDescLe (a b : SearchResult) : Bool := decide (b.similarity ≤ a.similarity)

/-- `aiKnowledgeBase.searchSimilarCode`: embed the query, scan at most 50
filter-matching entries, score each, drop scores `≤ 0.1`, sort descending,
return the top 10. -/
def searchSimilarCode (query : String) (f : Filters) (kb : List KnowledgeEntry) :
    List SearchResult :=
  let qe := generateEmbedding query
  let results := ((scannedEntries f kb).map
      (fun e => SearchResult.mk e (calculateSimilarity qe e.embedding).key)).filter
      (fun r => simGtQ r.similarity (1/10))
  (results.mergeSort simDescLe).take 10

/-- Replace the first element satisfying `p` (mongoose `findById` followed
by a mutating `save`; `_id`s are unique in the store). -/
def replaceFirst (p : α → Bool) (g : α → α) : List α → List α
  | [] => []
  | x :: xs => if p x then g x :: xs else x :: replaceFirst p g xs

/-- The in-place mutation performed by `updateCodeMetrics` on a found entry:
`reusageCount += 1`, then
`successRate = (successRate * (reusageCount - 1) + (wasSuccessful ? 1 : 0)) / reusageCount`
with `reusageCount` already incremented. -/
def metricsUpdatedEntry (e : KnowledgeEntry) (wasSuccessful : Bool) : KnowledgeEntry :=
  let n := e.reusageCount + 1
  { e with
    reusageCount := n,
    successRate := (e.successRate * ((n : ℚ) - 1) + (if wasSuccessful then 1 else 0)) / (n : ℚ) }

/-- `aiKnowledgeBase.updateCodeMetrics`: a no-op when `entryId` is not in
the store (and its `try/catch` swallows all errors, so it never fails the
caller). -/
def updateCodeMetrics (entryId : ℕ) (wasSuccessful : Bool)
    (kb : List KnowledgeEntry) : List KnowledgeEntry :=
  replaceFirst (fun e => e.id == entryId) (fun e => metricsUpdatedEntry e wasSuccessful) kb

/-- The `KnowledgeEntry` document built and saved by
`aiKnowledgeBase.storeCode`: embedding computed from
`description + " " + code`, counters at their schema defaults
(`reusageCount = 0`, `successRate = 1.0`).  `freshId` and the timestamp are
assigned by the store. -/
def storeCodeEntry (projectId : ℕ) (userId : String) (freshId : ℕ)
    (code description codeType : String) (meta : KEMeta) : KnowledgeEntry :=
  { id := freshId, projectId := projectId, userId := userId,
    codeType := codeType, description := description, code := code,
    metadata := meta,
    embedding := generateEmbedding (description ++ " " ++ code),
    reusageCount := 0, successRate := 1, createdAt := 0 }

/-! ### `aiOrchestrator.js` — response parsing

`parseCodeResponse` drives two regexes:

* ``codeBlockRegex = /```(?:(\w+)\s*\n)?([\s\S]*?)```/g`` — repeated `exec`.
  A match starts at a literal fence; the optional greedy header group needs
  a `\w+` word followed by whitespace containing a newline (backtracking
  lands the body start right after the *last* newline of that whitespace
  run, since `\s*` is greedy); the lazy body extends to the next fence.
  When the header group cannot match, the body starts right after the
  opening fence.  When no closing fence exists the scan is over (the
  skipped header consists of word/whitespace characters, so it cannot hide
  a fence).
* `filePathRegex = /\/\/\s*(?:File:|Path:)?\s*([^\n]+)/i` — a single
  leftmost `exec` against a block's text.  Note the `(?:File:|Path:)?`
  group is *optional*, so any `//` followed (possibly across whitespace,
  including newlines) by a non-newline character matches.  Backtracking
  order: outer `\s*` longest first; then the `File:`/`Path:` alternatives,
  then the empty option; then the inner `\s*` longest first; the capture is
  the maximal run of non-newline characters.
-/

/-- The backtick character (0x60). -/
def btick : Char := Char.ofNat 96

/-- A literal code fence, three backticks. -/
def fenceChars : List Char := [btick, btick, btick]

/-- A three-backtick string (used to build concrete test responses). -/
def fenceStr : String := String.mk fenceChars

/-- Header parse after an opening fence: the regex group `(?:(\w+)\s*\n)?`.
Returns the captured language (if the group matches) and the start of the
lazy body. -/
def parseHeader (rest : List Char) : Option (List Char) × List Char :=
  let w := rest.takeWhile isWordChar
  if w.isEmpty then (none, rest)
  else
    let aw := rest.drop w.length
    let ws := aw.takeWhile isSpaceJS
    match lastIdxOf '\n' ws with
    | none => (none, rest)
    | some k => (some w, aw.drop (k + 1))

/-- The repeated-`exec` loop of `codeBlockRegex`: the list of
`(language?, raw body)` pairs of all fenced blocks, in order.  Fueled
recursion (each step consumes at least the closing fence). -/
def execBlocksAux : ℕ → List Char → List (Option (List Char) × List Char)
  | 0, _ => []
  | fuel + 1, s =>
    match findSub fenceChars s with
    | none => []
    | some i =>
      let rest := s.drop (i + 3)
      match parseHeader rest with
      | (lang, body0) =>
        match findSub fenceChars body0 with
        | none => []
        | some j => (lang, body0.take j) :: execBlocksAux fuel (body0.drop (j + 3))

/-- All fenced code blocks of a response text. -/
def execBlocks (s : List Char) : List (Option (List Char) × List Char) :=
  execBlocksAux (s.length + 1) s

/-- Lowercase `"file:"`. -/
def fileLabel : List Char := ['f', 'i', 'l', 'e', ':']

/-- Lowercase `"path:"`. -/
def pathLabel : List Char := ['p', 'a', 't', 'h', ':']

/-- The trailing `\s*([^\n]+)` of `filePathRegex` at a given backtrack
position: `tryCaptureAt v c` places the inner `\s*` at length `c` (the
engine tries the longest first) and captures the maximal non-newline run. -/
def tryCaptureAt (v : List Char) : ℕ → Option (List Char)
  | 0 =>
    match v with
    | [] => none
    | x :: _ => if x == '\n' then none else some (v.takeWhile (fun ch => ch != '\n'))
  | c + 1 =>
    match v.drop (c + 1) with
    | [] => tryCaptureAt v c
    | x :: w => if x == '\n' then tryCaptureAt v c else some ((x :: w).takeWhile (fun ch => ch != '\n'))

/-- `\s*([^\n]+)` with greedy `\s*`: longest whitespace prefix first, then
backtrack. -/
def tryCapture (v : List Char) : Option (List Char) :=
  tryCaptureAt v (v.takeWhile isSpaceJS).length

/-- The optional `(?:File:|Path:)?` group (case-insensitive, `File:` then
`Path:` then the empty alternative — a greedy `?`), followed by the capture
tail. -/
def tryLabelAndCapture (rest : List Char) : Option (List Char) :=
  match (if lowerPrefixIs fileLabel rest then tryCapture (rest.drop 5) else none) with
  | some cap => some cap
  | none =>
    match (if lowerPrefixIs pathLabel rest then tryCapture (rest.drop 5) else none) with
    | some cap => some cap
    | none => tryCapture rest

/-- The whole tail of `filePathRegex` after a `//`: greedy outer `\s*`
(longest prefix of the whitespace run first), then label, then capture. -/
def tryAAt (u : List Char) : ℕ → Option (List Char)
  | 0 => tryLabelAndCapture u
  | a + 1 =>
    match tryLabelAndCapture (u.drop (a + 1)) with
    | some cap => some cap
    | none => tryAAt u a

/-- Match the tail of `filePathRegex` right after a literal `//`. -/
def tryAfterSlashes (u : List Char) : Option (List Char) :=
  tryAAt u (u.takeWhile isSpaceJS).length

/-- `filePathRegex.exec(code)`: leftmost `//` whose tail matches; returns
capture group 1.  Positions that do not start with `//`, or whose tail
fails, are skipped. -/
def extractFilePath : List Char → Option (List Char)
  | [] => none
  | c :: cs =>
    if c == '/' then
      match cs with
      | c2 :: u =>
        if c2 == '/' then
          match tryAfterSlashes u with
          | some cap => some cap
          | none => extractFilePath cs
        else extractFilePath cs
      | [] => none
    else extractFilePath cs

/-- `aiOrchestrator.getExtension`: language → file extension, `'js'` when
unmapped. -/
def getExtension (language : String) : String :=
  if language == "javascript" then "js"
  else if language == "jsx" then "jsx"
  else if language == "typescript" then "ts"
  else if language == "tsx" then "tsx"
  else if language == "html" then "html"
  else if language == "css" then "css"
  else if language == "json" then "json"
  else "js"

/-- `aiOrchestrator.generateDefaultFilePath`: the lookup table keyed by
request type, indexed by the sequential block index, with the
`src/file{index}.{ext}` fallback both for unmapped types and for an index
past the end of the type's path list. -/
def generateDefaultFilePath (ty language : String) (index : ℕ) : String :=
  let fallbackPath := "src/file" ++ toString index ++ "." ++ getExtension language
  let paths : List String :=
    if ty == "full-project" then
      ["src/App.jsx", "src/index.js", "public/index.html", "package.json"]
    else if ty == "component" then
      ["src/components/Component" ++ toString index ++ ".jsx"]
    else if ty == "service" then
      ["src/services/service" ++ toString index ++ ".js"]
    else if ty == "route" then
      ["src/routes/route" ++ toString index ++ ".js"]
    else [fallbackPath]
  (paths.get? index).getD fallbackPath

/-- Extension of a file path: `filePath.split('.').pop()` (the text after
the last dot; the whole path when there is no dot). -/
def lastDotSeg (s : List Char) : List Char :=
  match lastIdxOf '.' s with
  | none => s
  | some i => s.drop (i + 1)

/-- The `langMap` table of `aiOrchestrator.mapLanguage`. -/
def langMapLookup (ext : String) : Option String :=
  if ext == "js" then some "javascript"
  else if ext == "jsx" then some "javascript"
  else if ext == "ts" then some "typescript"
  else if ext == "tsx" then some "typescript"
  else if ext == "html" then some "html"
  else if ext == "css" then some "css"
  else if ext == "json" then some "json"
  else if ext == "md" then some "markdown"
  else none

/-- `aiOrchestrator.mapLanguage`: `langMap[ext] || detectedLang ||
'javascript'`. -/
def mapLanguage (detectedLang : String) (filePath : String) : String :=
  match langMapLookup (String.mk (lastDotSeg filePath.data)) with
  | some l => l
  | none => if detectedLang == "" then "javascript" else detectedLang

/-- One value of the `files` object: `{content, language}`. -/
structure FileEntry where
  content : String
  language : String
deriving DecidableEq, Repr

/-- JS object property assignment `files[filePath] = v` on a string-keyed
object modelled as an insertion-ordered assoc list: overwrite in place if
the key exists, else append. -/
def objInsert (m : List (String × FileEntry)) (k : String) (v : FileEntry) :
    List (String × FileEntry) :=
  if m.any (fun p => p.1 == k) then m.map (fun p => if p.1 == k then (k, v) else p)
  else m ++ [(k, v)]

/-- `match[1] || 'javascript'`: the detected language of a block. -/
def langNameOf : Option (List Char) → String
  | some w => String.mk w
  | none => "javascript"

/-- The body of the `while` loop of `parseCodeResponse` for one block at
sequential index `index`: trim the body, extract a path from the first
matching `//` comment or synthesize the default path, and build the file
record. -/
def assignBlock (ty : String) (blk : Option (List Char) × List Char) (index : ℕ) :
    String × FileEntry :=
  let language := langNameOf blk.1
  let code := trimJS blk.2
  let filePath :=
    match extractFilePath code with
    | some cap => String.mk (trimJS cap)
    | none => generateDefaultFilePath ty language index
  (filePath, ⟨String.mk code, mapLanguage language filePath⟩)

/-- The `(filePath, file)` pairs produced by the loop, in block order,
starting at index `i`. -/
def blockAssignments (ty : String) : ℕ → List (Option (List Char) × List Char) →
    List (String × FileEntry)
  | _, [] => []
  | i, b :: bs => assignBlock ty b i :: blockAssignments ty (i + 1) bs

/-- `aiOrchestrator.parseCodeResponse`: scan fenced blocks into the `files`
object; when no fenced block was found, the whole response becomes a single
file at the default path.  (The surrounding `try/catch` is dead in this
model: none of the string operations can throw.) -/
def parseCodeResponse (content : String) (ty : String) : List (String × FileEntry) :=
  let files := (blockAssignments ty 0 (execBlocks content.data)).foldl
    (fun m pf => objInsert m pf.1 pf.2) []
  if files.isEmpty then
    [(generateDefaultFilePath ty "javascript" 0, ⟨content, "javascript"⟩)]
  else files

/-! ### `aiOrchestrator.js` — provider selection and prompts -/

/-- The relevant fields of a `User` document: `uid`,
`preferences?.defaultAiProvider`, and the per-provider `apiKeys` map. -/
structure UserRec where
  uid : String
  defaultAiProvider : Option String
  apiKeys : List (String × String)
deriving DecidableEq, Repr

/-- The fields of `projectData` the orchestrator reads (`idNum` models the
opaque `_id`). -/
structure ProjectData where
  idNum : ℕ
  name : String
  description : String
  category : String
  frontendTech : Option String
  backendRequired : Bool
deriving DecidableEq, Repr

/-- A generation request. -/
structure RequestData where
  type : String
  description : Option String
  component : Option String
  stack : Option String
  category : Option String
deriving DecidableEq, Repr

/-- What a provider call returns: `{content, provider, tokensUsed}`. -/
structure BackendResult where
  content : String
  provider : String
  tokensUsed : ℕ
deriving DecidableEq, Repr

/-- One attempted outbound provider call: provider name, prompt, and the
`options.type` tag (`code_generation` or `code_adaptation`). -/
structure CallRec where
  provider : String
  prompt : String
  optType : String
deriving DecidableEq, Repr

/-- A `GenerationResult`: the parsed file map plus provenance. -/
structure GenResult where
  files : List (String × FileEntry)
  source : String
  originalEntry : Option ℕ
  provider : String
  tokensUsed : ℕ
deriving DecidableEq, Repr

/-- The world a `generateCode` call runs in: `process.env`, the user record
(`User.findOne({uid})`), an oracle for the five provider SDK calls
(provider name, prompt, `options.type` ↦ response or thrown error), an
oracle for `KnowledgeEntry.save` keyed by the entry description, and the
knowledge-base collection. -/
structure Ctx where
  env : List (String × String)
  user : UserRec
  backends : String → String → String → Except String BackendResult
  storeOk : String → Bool
  kb : List KnowledgeEntry

/-- `this.fallbackOrder`. -/
def fallbackOrder : List String := ["openai", "gemini", "claude", "deepseek", "openrouter"]

/-- `aiOrchestrator.getUserApiKey`:
`user.apiKeys?.[provider] || process.env[provider.toUpperCase() + '_API_KEY']`
(empty strings are falsy). -/
def getUserApiKey (user : UserRec) (env : List (String × String)) (provider : String) :
    Option String :=
  match jsStrOpt (alistGet user.apiKeys provider) with
  | some k => some k
  | none => jsStrOpt (alistGet env (toUpperStr provider ++ "_API_KEY"))

/-- `user.preferences?.defaultAiProvider || 'openai'`. -/
def defaultProvider (user : UserRec) : String := jsOrStr user.defaultAiProvider "openai"

/-- The provider-selection loop of `generateNewCode`.  The loop
`for (const fallbackProvider of this.fallbackOrder) { apiKey = ...; if (apiKey) break; }`
runs unconditionally — the preceding `let apiKey = this.getUserApiKey(user,
provider)` for the user's default provider is immediately overwritten — so
the provider used is the first of `fallbackOrder` with an available key,
regardless of the default.  Returns `none` when no provider in the list has
a key (then `generateNewCode` throws its no-credential error). -/
def selectGenProvider (user : UserRec) (env : List (String × String)) :
    Option (String × String) :=
  fallbackOrder.findSome? (fun p => (getUserApiKey user env p).map (fun k => (p, k)))

/-- A search hit rendered into the reference-context block of the
generation prompt.  JS prints `(entry.similarity * 100).toFixed(1)`; the
similarity is carried on the exact key scale here, so the printed number is
an abstract rendering — no claim depends on its digits. -/
def knowledgeSnippet (index : ℕ) (r : SearchResult) : String :=
  toString (index + 1) ++ ". " ++ r.entry.description ++ "\nSimilarity: " ++
    toString (r.similarity * 100) ++ "%\n\n"

/-- The `SIMILAR CODE EXAMPLES` block of `buildGenerationPrompt` (first
three hits), empty when there is no context. -/
def knowledgeBlock (knowledgeContext : List SearchResult) : String :=
  if knowledgeContext.length > 0 then
    "SIMILAR CODE EXAMPLES (for reference):\n" ++
      String.join ((knowledgeContext.take 3).enum.map (fun ir => knowledgeSnippet ir.1 ir.2))
  else ""

/-- The extra `REQUIREMENTS`/`STRUCTURE NEEDED` block appended for
`full-project` requests. -/
def fullProjectBlock (ty : String) : String :=
  if ty == "full-project" then
    "\nREQUIREMENTS:\n1. Generate a complete project structure\n2. Include proper file organization\n3. Add necessary dependencies\n4. Implement responsive design\n5. Include proper error handling\n6. Add loading states\n7. Use modern best practices\n8. Include proper TypeScript/JSX syntax\n\nSTRUCTURE NEEDED:\n- Main App component\n- Routing setup\n- Component organization\n- Styling (CSS/Tailwind)\n- Package.json configuration\n"
  else ""

/-- `aiOrchestrator.buildGenerationPrompt`, template for template. -/
def buildGenerationPrompt (pd : ProjectData) (req : RequestData)
    (knowledgeContext : List SearchResult) : String :=
  "Generate high-quality code for a web development project.\n\nPROJECT DETAILS:\n- Name: " ++
    pd.name ++ "\n- Description: " ++ pd.description ++ "\n- Category: " ++ pd.category ++
    "\n- Technology Stack: " ++ jsOrStr pd.frontendTech "react" ++ "\n- Backend Required: " ++
    (if pd.backendRequired then "Yes" else "No") ++ "\n\nREQUEST:\n- Type: " ++ req.type ++
    "\n- Description: " ++ jsOrStr req.description "Generate as specified" ++
    "\n- Component: " ++ jsOrStr req.component "general" ++ "\n\n" ++
    knowledgeBlock knowledgeContext ++ fullProjectBlock req.type ++
    "\nReturn the code in a structured format with clear file paths.\nUse modern React patterns, hooks, and best practices.\nEnsure all code is production-ready and well-commented.\n"

/-- The adaptation prompt of `adaptExistingCode`, built from the matched
entry's code and description and the new request. -/
def adaptationPrompt (entry : KnowledgeEntry) (req : RequestData) (pd : ProjectData) : String :=
  "\nAdapt this existing code for the new requirements:\n\nEXISTING CODE:\n" ++ entry.code ++
    "\n\nORIGINAL CONTEXT:\n" ++ entry.description ++ "\n\nNEW REQUIREMENTS:\n" ++
    jsOrStr req.description "Update code as needed" ++ "\n\nPROJECT CONTEXT:\n- Name: " ++
    pd.name ++ "\n- Category: " ++ pd.category ++ "\n- Stack: " ++
    jsOrStr pd.frontendTech "react" ++
    "\n\nPlease adapt the existing code to meet the new requirements while maintaining best practices.\nReturn only the adapted code, no explanations.\n"

/-! ### `aiOrchestrator.js` — the generateCode pipeline -/

/-- `this.providers` has exactly the five fallback providers as keys. -/
def providerSupported (p : String) : Bool := fallbackOrder.contains p

/-- `aiOrchestrator.callProvider`: dispatch to the provider function, or
throw `Provider ... not supported` without any network call.  The second
component is the list of outbound network calls actually attempted. -/
def callProvider (ctx : Ctx) (p : String) (prompt : String) (optType : String) :
    Except String BackendResult × List CallRec :=
  if providerSupported p then (ctx.backends p prompt optType, [⟨p, prompt, optType⟩])
  else (.error ("Provider " ++ p ++ " not supported"), [])

/-- `aiOrchestrator.generateNewCode`: pick a provider (see
`selectGenProvider`), throw the no-credential error when none is available,
otherwise call it with the generation prompt and parse the response.
Returns the result (or thrown error) together with the attempted calls. -/
def generateNewCode (ctx : Ctx) (pd : ProjectData) (req : RequestData)
    (knowledgeContext : List SearchResult) : Except String GenResult × List CallRec :=
  match selectGenProvider ctx.user ctx.env with
  | none => (.error "No available AI provider API keys found", [])
  | some (p, _key) =>
    let prompt := buildGenerationPrompt pd req knowledgeContext
    match callProvider ctx p prompt "code_generation" with
    | (.error e, calls) => (.error e, calls)
    | (.ok r, calls) =>
      (.ok { files := parseCodeResponse r.content req.type, source := "generated",
             originalEntry := none, provider := r.provider, tokensUsed := r.tokensUsed },
       calls)

/-- `aiOrchestrator.adaptExistingCode` on the top search hit.  Any throw
inside its `try` — missing key for the user's default provider, unsupported
provider, or a failing provider call — is caught and falls back to
`generateNewCode` with empty (`[]`) knowledge context.  On success the
matched entry's metrics are updated and the result is marked `adapted`.
Returns (result, attempted calls, knowledge base after the call). -/
def adaptExistingCode (ctx : Ctx) (pd : ProjectData) (req : RequestData)
    (top : SearchResult) : Except String GenResult × List CallRec × List KnowledgeEntry :=
  let p := defaultProvider ctx.user
  match getUserApiKey ctx.user ctx.env p with
  | none =>
    match generateNewCode ctx pd req [] with
    | (res, calls) => (res, calls, ctx.kb)
  | some _key =>
    let prompt := adaptationPrompt top.entry req pd
    match callProvider ctx p prompt "code_adaptation" with
    | (.error _e, calls1) =>
      match generateNewCode ctx pd req [] with
      | (res, calls2) => (res, calls1 ++ calls2, ctx.kb)
    | (.ok r, calls1) =>
      (.ok { files := parseCodeResponse r.content req.type, source := "adapted",
             originalEntry := some top.entry.id, provider := r.provider,
             tokensUsed := r.tokensUsed },
       calls1, updateCodeMetrics top.entry.id true ctx.kb)

/-- The description `storeGeneratedCode` gives each stored file:
`request.type + ': ' + filePath + ' - ' + (request.description || '')`. -/
def storeDescription (req : RequestData) (filePath : String) : String :=
  req.type ++ ": " ++ filePath ++ " - " ++ jsOrStr req.description ""

/-- The metadata `storeGeneratedCode` passes to `storeCode`
(`filePath`/`language` are dropped by mongoose strict mode, which keeps
only the schema fields `stack` and `category`). -/
def storeMeta (req : RequestData) : KEMeta :=
  ⟨some (jsOrStr req.stack "react"), req.category, [], []⟩

/-- The `for (const [filePath, fileData] of Object.entries(...))` loop of
`storeGeneratedCode`.  `storeCode` rethrows its errors and the `try/catch`
sits OUTSIDE the loop, so the first failing save aborts the whole loop
(remaining files are not stored) and the error is swallowed.  Returns the
knowledge base after the loop and the entries appended by this call. -/
def storeGeneratedCodeAux (ctx : Ctx) (projectId : ℕ) (userId : String) (req : RequestData) :
    List (String × FileEntry) → List KnowledgeEntry → List KnowledgeEntry →
    List KnowledgeEntry × List KnowledgeEntry
  | [], kb, stored => (kb, stored)
  | (filePath, fd) :: rest, kb, stored =>
    let desc := storeDescription req filePath
    if ctx.storeOk desc then
      let e := storeCodeEntry projectId userId kb.length fd.content desc req.type (storeMeta req)
      storeGeneratedCodeAux ctx projectId userId req rest (kb ++ [e]) (stored ++ [e])
    else (kb, stored)

/-- `aiOrchestrator.storeGeneratedCode` over a result's file map. -/
def storeGeneratedCode (ctx : Ctx) (projectId : ℕ) (userId : String) (req : RequestData)
    (files : List (String × FileEntry)) : List KnowledgeEntry × List KnowledgeEntry :=
  storeGeneratedCodeAux ctx projectId userId req files ctx.kb []

/-- `aiOrchestrator.searchKnowledgeBase`: compose the query string and the
filter object (JS truthiness: empty-string fields are not filtered on) and
call `searchSimilarCode`. -/
def searchKnowledgeBase (ctx : Ctx) (pd : ProjectData) (req : RequestData) :
    List SearchResult :=
  let query := jsOrStr req.description "" ++ " " ++ req.type ++ " " ++ pd.category ++ " " ++
    jsOrStr pd.frontendTech "react"
  let f : Filters :=
    { userId := jsStrOpt (some ctx.user.uid), codeType := jsStrOpt (some req.type),
      stack := jsStrOpt (some (jsOrStr pd.frontendTech "react")),
      category := jsStrOpt (some pd.category) }
  searchSimilarCode query f ctx.kb

/-- Everything observable about one `generateCode` call: the returned
result or thrown error, the outbound provider calls attempted, the
knowledge base afterwards, and the entries this call appended to it. -/
structure Outcome where
  result : Except String GenResult
  calls : List CallRec
  kbAfter : List KnowledgeEntry
  stored : List KnowledgeEntry

/-- Steps 3–4 of `generateCode`: generate new code, then (only on success)
persist every parsed file via `storeGeneratedCode`. -/
def generateCodeGenPath (ctx : Ctx) (pd : ProjectData) (req : RequestData)
    (kres : List SearchResult) : Outcome :=
  match generateNewCode ctx pd req kres with
  | (.error e, calls) => ⟨.error e, calls, ctx.kb, []⟩
  | (.ok r, calls) =>
    match storeGeneratedCode ctx pd.idNum ctx.user.uid req r.files with
    | (kb1, stored) => ⟨.ok r, calls, kb1, stored⟩

/-- `aiOrchestrator.generateCode`: search the knowledge base; when the top
hit exists with similarity strictly above `0.7`, adapt it (returning
directly — the adapt path never reaches the store step); otherwise generate
new code and persist it. -/
def generateCode (ctx : Ctx) (pd : ProjectData) (req : RequestData) : Outcome :=
  match searchKnowledgeBase ctx pd req with
  | [] => generateCodeGenPath ctx pd req []
  | top :: rest =>
    if simGtQ top.similarity (7/10) then
      match adaptExistingCode ctx pd req top with
      | (res, calls, kb1) => ⟨res, calls, kb1, []⟩
    else generateCodeGenPath ctx pd req (top :: rest)

/-! ### Concrete fixtures used by witnesses and counterexamples -/

/-- Case-insensitive substring test (used to state that a code block
contains no `File:`/`Path:` label anywhere). -/
def containsCI (pat : List Char) (s : List Char) : Bool :=
  (findSub pat (lowerStr s)).isSome

/-- A provider oracle that always answers `"out"`. -/
def backendsOk : String → String → String → Except String BackendResult :=
  fun p _prompt _ty => .ok ⟨"out", p, 1⟩

/-- A provider oracle whose adaptation calls throw and whose generation
calls succeed. -/
def backendsAdaptFail : String → String → String → Except String BackendResult :=
  fun p _prompt ty => if ty == "code_adaptation" then .error "boom" else .ok ⟨"out", p, 1⟩

/-- A user whose default provider is `openai`, with one `openai` key. -/
def userA : UserRec := ⟨"u", some "openai", [("openai", "k")]⟩

/-- A user whose default provider is `claude`, holding keys for both
`claude` and `openai`. -/
def userC1 : UserRec := ⟨"u1", some "claude", [("claude", "ck"), ("openai", "ok")]⟩

/-- A small project: category `app`, stack `react`. -/
def pdA : ProjectData := ⟨1, "n", "d", "app", some "react", false⟩

/-- A bare `component` request without description. -/
def reqA : RequestData := ⟨"component", none, none, none, none⟩

/-- A `component` request with description `d`. -/
def reqD : RequestData := ⟨"component", some "d", none, none, none⟩

/-- A knowledge entry matching `pdA`/`reqA`'s search filters, with a given
stored embedding vector. -/
def entryBase (emb : List ℚ) : KnowledgeEntry :=
  { id := 5, projectId := 1, userId := "u", codeType := "component",
    description := "button", code := "x",
    metadata := ⟨some "react", some "app", [], []⟩,
    embedding := rawVec emb, reusageCount := 0, successRate := 1, createdAt := 0 }

/-- Against the query embedding `(1,1,0,…)/√2` of `pdA`/`reqA`, this stored
vector has cosine similarity exactly `7/√(2·50) = 0.7`. -/
def entry07 : KnowledgeEntry :=
  entryBase [7, 0, 1, 0, 0, 0, 0, 0, 0, 0, 0, 0, 0, 0, 0, 0, 0, 0, 0, 0, 0, 0, 0, 0]

/-- Against the same query embedding, cosine similarity exactly
`12/√(2·128) = 0.75`. -/
def entry075 : KnowledgeEntry :=
  entryBase [10, 2, 4, 2, 2, 0, 0, 0, 0, 0, 0, 0, 0, 0, 0, 0, 0, 0, 0, 0, 0, 0, 0, 0]

/-- Against the same query embedding, cosine similarity exactly `1`. -/
def entryHi : KnowledgeEntry :=
  entryBase [1, 1, 0, 0, 0, 0, 0, 0, 0, 0, 0, 0, 0, 0, 0, 0, 0, 0, 0, 0, 0, 0, 0, 0]

/-- An `entryHi` variant with `successRate` ½ (for the metrics witness). -/
def entryHalf : KnowledgeEntry := { entryHi with successRate := 1/2 }

/-- World with the exact-0.7 match in the store. -/
def ctxC3 : Ctx := ⟨[], userA, backendsOk, fun _ => true, [entry07]⟩

/-- World with the exact-0.75 match in the store. -/
def ctxAdapt : Ctx := ⟨[], userA, backendsOk, fun _ => true, [entry075]⟩

/-- World with an empty knowledge base. -/
def ctxEmpty : Ctx := ⟨[], userA, backendsOk, fun _ => true, []⟩

/-- World with a perfect (similarity 1) match in the store. -/
def ctxHi : Ctx := ⟨[], userA, backendsOk, fun _ => true, [entryHi]⟩

/-- World where the adaptation call throws but generation succeeds, with a
perfect match in the store. -/
def ctxC4 : Ctx := ⟨[], userA, backendsAdaptFail, fun _ => true, [entryHi]⟩

/-- World for the dead-first-assignment provider-selection run. -/
def ctxC1 : Ctx := ⟨[], userC1, backendsOk, fun _ => true, []⟩

/-- Scenario D response: two fenced `jsx` blocks, the first with a
`// File:` comment, the second without any `//` at all. -/
def contentD : String :=
  fenceStr ++ "jsx\n// File: src/Foo.jsx\nexport default 1\n" ++ fenceStr ++ "\n" ++
    fenceStr ++ "jsx\nexport default 2\n" ++ fenceStr

/-- A response with a single block whose only `//` is a plain comment —
no `File:`/`Path:` label anywhere. -/
def contentC5 : String := fenceStr ++ "js\nconst x = 1; // helper\n" ++ fenceStr

/-- A response with two `// File:`-labelled blocks (`a.js`, `b.js`). -/
def contentC6 : String :=
  fenceStr ++ "js\n// File: a.js\n1\n" ++ fenceStr ++ "\n" ++
    fenceStr ++ "js\n// File: b.js\n2\n" ++ fenceStr

/-- A provider oracle answering the two-file response `contentC6`. -/
def backendsC6 : String → String → String → Except String BackendResult :=
  fun p _prompt _ty => .ok ⟨contentC6, p, 1⟩

/-- World in which saving the entry for `a.js` fails and every other save
succeeds. -/
def ctxC6 : Ctx :=
  ⟨[], userA, backendsC6, fun d => d != "component: a.js - d", []⟩

/-- The generation result produced in the `ctxEmpty` world. -/
def rEmpty : GenResult :=
  ⟨parseCodeResponse "out" "component", "generated", none, "openai", 1⟩

/-- The calls made on the generate path in the `ctxEmpty` world. -/
def callsEmpty : List CallRec :=
  [⟨"openai", buildGenerationPrompt pdA reqA [], "code_generation"⟩]

/-- The generation result produced in the `ctxC6` world. -/
def rC6 : GenResult :=
  ⟨parseCodeResponse contentC6 "component", "generated", none, "openai", 1⟩

/-- The calls made on the generate path in the `ctxC6` world. -/
def callsC6 : List CallRec :=
  [⟨"openai", buildGenerationPrompt pdA reqD [], "code_generation"⟩]

/-- The embedding counts of the query `" component app react"` composed by
`searchKnowledgeBase` for `pdA`/`reqA` (and `reqD`, whose extra token `d` is
too short to survive the length filter). -/
def qA : List ℚ :=
  [1, 1, 0, 0, 0, 0, 0, 0, 0, 0, 0, 0, 0, 0, 0, 0, 0, 0, 0, 0, 0, 0, 0, 0]

/-- The filter object `searchKnowledgeBase` builds for `userA`/`pdA`/`reqA`. -/
def fA : Filters := ⟨some "u", some "component", some "react", some "app"⟩

/-- A user with no API keys anywhere. -/
def userNone : UserRec := ⟨"u2", some "claude", []⟩

/-- Store and filters for the search witness. -/
def kbW : List KnowledgeEntry := [entryHi, entry07]

/-- Filters for the search witness. -/
def fW : Filters := ⟨some "u", none, none, none⟩

/-- Store for the metrics witness. -/
def kb8 : List KnowledgeEntry := [entryHalf]

/-! ### Helper lemmas -/

theorem sumSq_nonneg (l : List ℚ) : 0 ≤ sumSq l := by
  induction l with
  | nil => simp [sumSq]
  | cons a t ih =>
    simp only [sumSq, List.map_cons, List.sum_cons]
    have ha : 0 ≤ a * a := mul_self_nonneg a
    have ht : 0 ≤ (t.map (fun x => x * x)).sum := ih
    linarith

theorem sumSq_eq_zero_iff (l : List ℚ) : sumSq l = 0 ↔ ∀ x ∈ l, x = 0 := by
  induction l with
  | nil => simp [sumSq]
  | cons a t ih =>
    simp only [sumSq, List.map_cons, List.sum_cons, List.mem_cons]
    have ha : 0 ≤ a * a := mul_self_nonneg a
    have ht : 0 ≤ (t.map (fun x => x * x)).sum := sumSq_nonneg t
    constructor
    · intro h
      have haz : a * a = 0 := by linarith
      have haz' : a = 0 := by
        rcases mul_self_eq_zero.mp haz with h'
        exact h'
      have htz : sumSq t = 0 := by simp only [sumSq]; linarith
      intro x hx
      rcases hx with hx | hx
      · exact hx ▸ haz'
      · exact (ih.mp htz) x hx
    · intro h
      have haz : a = 0 := h a (Or.inl rfl)
      have htz : sumSq t = 0 := ih.mpr (fun x hx => h x (Or.inr hx))
      simp only [sumSq] at htz
      rw [haz, htz]
      ring

theorem simGtQ_imp_geQ (k t : ℚ) (h : simGtQ k t = true) : simGeQ k t = true := by
  simp only [simGtQ, decide_eq_true_eq] at h
  simp only [simGeQ, decide_eq_true_eq]
  exact le_of_lt h

theorem simDescLe_trans (a b c : SearchResult) (h1 : simDescLe a b = true)
    (h2 : simDescLe b c = true) : simDescLe a c = true := by
  simp only [simDescLe, decide_eq_true_eq] at *
  exact le_trans h2 h1

theorem simDescLe_total (a b : SearchResult) : (simDescLe a b || simDescLe b a) = true := by
  simp only [simDescLe]
  rcases le_total a.similarity b.similarity with h | h
  · simp [h]
  · simp [h]

/-! ### C7 and C9 -/

/-- C7: for every query and every filter set, `searchSimilarCode` scans at
most 50 filter-matching entries, returns at most 10 results all drawn from
the scanned entries, every returned similarity is at least `0.1` (on the
exact key scale, `simGeQ · (1/10)`), and the returned sequence is sorted in
non-increasing order of similarity. -/
theorem c7_search_bounded_sorted (query : String) (f : Filters) (kb : List KnowledgeEntry) :
    (searchSimilarCode query f kb).length ≤ 10 ∧
    (∀ r ∈ searchSimilarCode query f kb, simGeQ r.similarity (1/10) = true) ∧
    List.Sorted (fun a b : SearchResult => b.similarity ≤ a.similarity)
      (searchSimilarCode query f kb) ∧
    (scannedEntries f kb).length ≤ 50 ∧
    (∀ r ∈ searchSimilarCode query f kb, r.entry ∈ scannedEntries f kb) := by
  have hmem : ∀ r ∈ searchSimilarCode query f kb,
      r ∈ ((scannedEntries f kb).map
        (fun e => SearchResult.mk e (calculateSimilarity (generateEmbedding query) e.embedding).key)).filter
        (fun r => simGtQ r.similarity (1/10)) := by
    intro r hr
    simp only [searchSimilarCode] at hr
    exact List.mem_mergeSort.mp (List.mem_of_mem_take hr)
  refine ⟨?_, ?_, ?_, ?_, ?_⟩
  · simp only [searchSimilarCode]
    exact List.length_take_le 10 _
  · intro r hr
    exact simGtQ_imp_geQ _ _ (List.mem_filter.mp (hmem r hr)).2
  · simp only [searchSimilarCode]
    have hs := List.sorted_mergeSort simDescLe_trans simDescLe_total
      (((scannedEntries f kb).map
        (fun e => SearchResult.mk e (calculateSimilarity (generateEmbedding query) e.embedding).key)).filter
        (fun r => simGtQ r.similarity (1/10)))
    have hs' : List.Pairwise (fun a b : SearchResult => b.similarity ≤ a.similarity)
        ((((scannedEntries f kb).map
          (fun e => SearchResult.mk e (calculateSimilarity (generateEmbedding query) e.embedding).key)).filter
          (fun r => simGtQ r.similarity (1/10))).mergeSort simDescLe) := by
      refine hs.imp ?_
      intro a b h
      simpa [simDescLe, decide_eq_true_eq] using h
    exact List.Pairwise.sublist (List.take_sublist 10 _) hs'
  · exact List.length_take_le 50 _
  · intro r hr
    have := List.mem_filter.mp (hmem r hr)
    obtain ⟨e, he, hre⟩ := List.mem_map.mp this.1
    rw [← hre]
    exact he

/-- C7 witness at a concrete query, filter set and store. -/
theorem c7_search_witness :
    (searchSimilarCode "react component" fW kbW).length ≤ 10 ∧
    (∀ r ∈ searchSimilarCode "react component" fW kbW, simGeQ r.similarity (1/10) = true) ∧
    List.Sorted (fun a b : SearchResult => b.similarity ≤ a.similarity)
      (searchSimilarCode "react component" fW kbW) ∧
    (scannedEntries fW kbW).length ≤ 50 ∧
    (∀ r ∈ searchSimilarCode "react component" fW kbW, r.entry ∈ scannedEntries fW kbW) :=
  c7_search_bounded_sorted "react component" fW kbW

/-- C9: `calculateSimilarity` is total (it is a Lean function — the JS loop
indexes only up to the common length, so it never throws), and it returns
exactly `0` (the representation `⟨0, 1⟩`) whenever the two vectors differ in
length or either vector is all-zero (zero magnitude). -/
theorem c9_similarity_zero_cases (v1 v2 : List ℚ)
    (h : v1.length ≠ v2.length ∨ (∀ x ∈ v1, x = 0) ∨ (∀ x ∈ v2, x = 0)) :
    calculateSimilarity (rawVec v1) (rawVec v2) = ⟨0, 1⟩ := by
  rcases h with h | h | h
  · simp [calculateSimilarity, rawVec, h]
  · have h1 : sumSq v1 = 0 := (sumSq_eq_zero_iff v1).mpr h
    simp only [calculateSimilarity, rawVec]
    split
    · rfl
    · simp [h1]
  · have h2 : sumSq v2 = 0 := (sumSq_eq_zero_iff v2).mpr h
    simp only [calculateSimilarity, rawVec]
    split
    · rfl
    · simp [h2]

/-- C9 witness: an all-zero vector against an equal-length nonzero vector. -/
theorem c9_zero_witness :
    (∀ x ∈ [(0 : ℚ), 0], x = 0) ∧
    calculateSimilarity (rawVec [0, 0]) (rawVec [1, 2]) = ⟨0, 1⟩ :=
  ⟨by decide, c9_similarity_zero_cases [0, 0] [1, 2] (Or.inr (Or.inl (by decide)))⟩

/-! ### C10 -/

theorem calcSim_zero_left (b : EVec) :
    calculateSimilarity ⟨List.replicate 24 0, 1⟩ b = ⟨0, 1⟩ := by
  have h0 : sumSq (List.replicate 24 (0 : ℚ)) = 0 :=
    (sumSq_eq_zero_iff _).mpr (fun x hx => List.eq_of_mem_replicate hx)
  unfold calculateSimilarity
  split
  · rfl
  · rw [if_pos (Or.inl h0)]

theorem simKeyOf_pos_eval (t : ℚ) (h : 0 < t) : simKeyOf t = t * t := by
  rw [simKeyOf, abs_of_pos h]

theorem simGtQ_zero_tenth : simGtQ 0 (1/10) = false := by
  rw [simGtQ, simKeyOf_pos_eval (1/10) (by norm_num)]
  simp only [decide_eq_false_iff_not]
  norm_num

/-- C10: a query none of whose tokens is one of the 24 vocabulary terms
embeds to the all-zero vector, so `searchSimilarCode` returns the empty
list whatever entries are stored: every entry's cosine similarity is `0`
and is removed by the minimum-similarity filter. -/
theorem c10_no_vocab_empty_search (query : String)
    (h : ∀ t ∈ tokenize query, t ∉ vocabulary) :
    generateEmbedding query = ⟨List.replicate 24 0, 1⟩ ∧
    ∀ (f : Filters) (kb : List KnowledgeEntry), searchSimilarCode query f kb = [] := by
  have h0 : sumSq (List.replicate 24 (0 : ℚ)) = 0 :=
    (sumSq_eq_zero_iff _).mpr (fun x hx => List.eq_of_mem_replicate hx)
  have hcounts : vocabulary.map (fun w => (((tokenize query).count w : ℕ) : ℚ)) =
      List.replicate 24 (0 : ℚ) := by
    rw [List.eq_replicate_iff]
    constructor
    · simp only [List.length_map]
      decide
    · intro b hb
      obtain ⟨w, hw, hwb⟩ := List.mem_map.mp hb
      have : (tokenize query).count w = 0 := by
        rw [List.count_eq_zero]
        intro hmem
        exact h w hmem hw
      rw [← hwb, this]
      norm_num
  have hemb : generateEmbedding query = ⟨List.replicate 24 0, 1⟩ := by
    simp only [generateEmbedding, hcounts, h0, gt_iff_lt, lt_self_iff_false, if_false]
  refine ⟨hemb, ?_⟩
  intro f kb
  simp only [searchSimilarCode, hemb]
  have hfilter : ((scannedEntries f kb).map
      (fun e => SearchResult.mk e (calculateSimilarity ⟨List.replicate 24 0, 1⟩ e.embedding).key)).filter
      (fun r => simGtQ r.similarity (1/10)) = [] := by
    rw [List.filter_eq_nil_iff]
    intro r hr
    obtain ⟨e, _, hre⟩ := List.mem_map.mp hr
    rw [← hre]
    simp only [calcSim_zero_left]
    have hkey : (Sim.mk 0 1).key = 0 := by
      simp [Sim.key]
    rw [hkey, simGtQ_zero_tenth]
    simp
  rw [hfilter]
  simp [List.mergeSort_nil]

/-- C10 witness: a query with no vocabulary tokens, against a nonempty
store. -/
theorem c10_empty_witness :
    (∀ t ∈ tokenize "zzzz qqq", t ∉ vocabulary) ∧
    searchSimilarCode "zzzz qqq" fW kbW = [] :=
  ⟨by decide, (c10_no_vocab_empty_search "zzzz qqq" (by decide)).2 fW kbW⟩

/-! ### C8 -/

theorem replaceFirst_eq_of_find?_none {α} (p : α → Bool) (g : α → α) :
    ∀ (l : List α), l.find? p = none → replaceFirst p g l = l := by
  intro l
  induction l with
  | nil => intro _; rfl
  | cons x xs ih =>
    intro hf
    rw [List.find?_cons] at hf
    by_cases hx : p x = true
    · simp [hx] at hf
    · have hx' : p x = false := by simpa using hx
      simp only [hx'] at hf
      simp [replaceFirst, hx', ih hf]

theorem find?_replaceFirst {α} (p : α → Bool) (g : α → α) :
    ∀ (l : List α) (a : α), l.find? p = some a → p (g a) = true →
      (replaceFirst p g l).find? p = some (g a) := by
  intro l
  induction l with
  | nil => intro a h _; simp at h
  | cons x xs ih =>
    intro a hf hg
    rw [List.find?_cons] at hf
    by_cases hx : p x = true
    · simp only [hx] at hf
      have hax : a = x := by simpa using hf.symm
      subst hax
      simp [replaceFirst, hx, List.find?_cons, hg]
    · have hx' : p x = false := by simpa using hx
      simp only [hx'] at hf
      simp [replaceFirst, hx', List.find?_cons, ih a hf hg]

theorem metricsUpdatedEntry_id (e : KnowledgeEntry) (b : Bool) :
    (metricsUpdatedEntry e b).id = e.id := rfl

theorem metricsStep_mono (e : KnowledgeEntry) (hs : e.successRate ≤ 1) :
    e.successRate ≤ (metricsUpdatedEntry e true).successRate ∧
    (metricsUpdatedEntry e true).successRate ≤ 1 := by
  have hk : (0 : ℚ) ≤ (e.reusageCount : ℚ) := Nat.cast_nonneg _
  have hpos : (0 : ℚ) < ((e.reusageCount + 1 : ℕ) : ℚ) := by
    push_cast
    linarith
  simp only [metricsUpdatedEntry, if_pos rfl]
  constructor
  · rw [le_div_iff₀ hpos]
    push_cast
    nlinarith
  · rw [div_le_one hpos]
    push_cast
    nlinarith

theorem updateMetrics_iterate (entryId : ℕ) (n : ℕ) :
    ∀ (kb : List KnowledgeEntry) (e : KnowledgeEntry),
      kb.find? (fun x => x.id == entryId) = some e → e.successRate ≤ 1 →
      ∃ e', ((updateCodeMetrics entryId true)^[n] kb).find? (fun x => x.id == entryId) = some e' ∧
        e'.reusageCount = e.reusageCount + n ∧
        e.successRate ≤ e'.successRate ∧ e'.successRate ≤ 1 := by
  induction n with
  | zero =>
    intro kb e hf hs
    exact ⟨e, by simpa using hf, by simp, le_refl _, hs⟩
  | succ m ih =>
    intro kb e hf hs
    have hpe : (e.id == entryId) = true := by simpa using List.find?_some hf
    have hpge : ((metricsUpdatedEntry e true).id == entryId) = true := by
      rw [metricsUpdatedEntry_id]
      exact hpe
    have hstep : (updateCodeMetrics entryId true kb).find? (fun x => x.id == entryId) =
        some (metricsUpdatedEntry e true) :=
      find?_replaceFirst _ _ kb e hf hpge
    have hmono := metricsStep_mono e hs
    obtain ⟨e', h1, h2, h3, h4⟩ :=
      ih (updateCodeMetrics entryId true kb) (metricsUpdatedEntry e true) hstep hmono.2
    refine ⟨e', ?_, ?_, le_trans hmono.1 h3, h4⟩
    · rw [Function.iterate_succ_apply]
      exact h1
    · rw [h2]
      simp only [metricsUpdatedEntry]
      omega

/-- C8: `updateCodeMetrics` on a found entry increments `reusageCount` and
recomputes `successRate` as the running average
`(successRate·(reusageCount'-1) + (wasSuccessful ? 1 : 0)) / reusageCount'`
(with `reusageCount'` the incremented counter); `n` successful calls add
exactly `n` to `reusageCount` and drive `successRate` monotonically
non-decreasing and bounded by `1.0` when it starts at most `1.0`; a call
whose `entryId` is not in the store leaves the store unchanged (and the JS
`try/catch` means it never fails the caller). -/
theorem c8_update_metrics_props (kb : List KnowledgeEntry) (entryId : ℕ) (b : Bool) (n : ℕ)
    (e : KnowledgeEntry) :
    (kb.find? (fun x => x.id == entryId) = none →
      updateCodeMetrics entryId b kb = kb) ∧
    (kb.find? (fun x => x.id == entryId) = some e →
      (updateCodeMetrics entryId b kb).find? (fun x => x.id == entryId) =
        some { e with
          reusageCount := e.reusageCount + 1,
          successRate := (e.successRate * (((e.reusageCount + 1 : ℕ) : ℚ) - 1) +
            (if b then 1 else 0)) / ((e.reusageCount + 1 : ℕ) : ℚ) }) ∧
    (kb.find? (fun x => x.id == entryId) = some e → e.successRate ≤ 1 →
      ∃ e', ((updateCodeMetrics entryId true)^[n] kb).find? (fun x => x.id == entryId) = some e' ∧
        e'.reusageCount = e.reusageCount + n ∧
        e.successRate ≤ e'.successRate ∧ e'.successRate ≤ 1) := by
  refine ⟨?_, ?_, ?_⟩
  · intro hf
    exact replaceFirst_eq_of_find?_none _ _ kb hf
  · intro hf
    have hpe : (e.id == entryId) = true := by simpa using List.find?_some hf
    have hpge : ((metricsUpdatedEntry e b).id == entryId) = true := by
      rw [metricsUpdatedEntry_id]
      exact hpe
    exact find?_replaceFirst _ _ kb e hf hpge
  · intro hf hs
    exact updateMetrics_iterate entryId n kb e hf hs

theorem entryHalf_rate_le : entryHalf.successRate ≤ 1 := by
  norm_num [entryHalf, entryHi, entryBase]

/-- C8 witness: an unknown id is a no-op; one call on a ½-rate entry lands
at the running-average value; three successful calls raise the count from 0
to 3 with the rate still in `[½, 1]`. -/
theorem c8_metrics_witness :
    updateCodeMetrics 3 true [] = [] ∧
    (updateCodeMetrics 5 true kb8).find? (fun x => x.id == 5) =
      some { entryHalf with
        reusageCount := entryHalf.reusageCount + 1,
        successRate := (entryHalf.successRate * (((entryHalf.reusageCount + 1 : ℕ) : ℚ) - 1) +
          (if true then 1 else 0)) / ((entryHalf.reusageCount + 1 : ℕ) : ℚ) } ∧
    (∃ e', ((updateCodeMetrics 5 true)^[3] kb8).find? (fun x => x.id == 5) = some e' ∧
      e'.reusageCount = entryHalf.reusageCount + 3 ∧
      entryHalf.successRate ≤ e'.successRate ∧ e'.successRate ≤ 1) :=
  ⟨(c8_update_metrics_props [] 3 true 0 entryHalf).1 rfl,
   (c8_update_metrics_props kb8 5 true 0 entryHalf).2.1 rfl,
   (c8_update_metrics_props kb8 5 true 3 entryHalf).2.2 rfl entryHalf_rate_le⟩

/-! ### C5 -/

theorem blockAssignments_get? (ty : String) :
    ∀ (bs : List (Option (List Char) × List Char)) (i0 i : ℕ)
      (blk : Option (List Char) × List Char),
      bs.get? i = some blk →
      (blockAssignments ty i0 bs).get? i = some (assignBlock ty blk (i0 + i)) := by
  intro bs
  induction bs with
  | nil => intro i0 i blk h; simp at h
  | cons b t ih =>
    intro i0 i blk h
    cases i with
    | zero =>
      simp only [List.get?] at h
      injection h with h
      subst h
      simp [blockAssignments]
    | succ j =>
      simp only [List.get?] at h
      have := ih (i0 + 1) j blk h
      simp only [blockAssignments, List.get?]
      rw [this]
      congr 2
      omega

/-- C5 (amended): a fenced block is assigned the synthesized default path
for its (request type, language, sequential index) exactly when the path
regex finds no match in its text at all — because the `File:`/`Path:` label
is optional, this means no `//` followed by usable text, not merely the
absence of a `File:`/`Path:` comment; and the two-block scenario does hold
when the second block contains no `//` whatsoever: it parses into exactly
two files, `src/Foo.jsx` and the synthesized default `src/file1.jsx`. -/
theorem c5_default_path_only_without_any_comment :
    (∀ (content ty : String) (i : ℕ) (blk : Option (List Char) × List Char),
       (execBlocks content.data).get? i = some blk →
       extractFilePath (trimJS blk.2) = none →
       (blockAssignments ty 0 (execBlocks content.data)).get? i =
         some (generateDefaultFilePath ty (langNameOf blk.1) i,
           ⟨String.mk (trimJS blk.2),
            mapLanguage (langNameOf blk.1) (generateDefaultFilePath ty (langNameOf blk.1) i)⟩)) ∧
    parseCodeResponse contentD "component" =
      [("src/Foo.jsx", ⟨"// File: src/Foo.jsx\nexport default 1", "javascript"⟩),
       ("src/file1.jsx", ⟨"export default 2", "javascript"⟩)] := by
  constructor
  · intro content ty i blk hget hnone
    rw [blockAssignments_get? ty (execBlocks content.data) 0 i blk hget]
    simp [assignBlock, hnone]
  · decide

/-- C5 witness: the second scenario-D block (no `//` at all) gets the
synthesized default path `src/file1.jsx`. -/
theorem c5_default_witness :
    (execBlocks contentD.data).get? 1 =
      some (some ['j', 's', 'x'], "export default 2\n".data) ∧
    extractFilePath (trimJS "export default 2\n".data) = none ∧
    (blockAssignments "component" 0 (execBlocks contentD.data)).get? 1 =
      some (generateDefaultFilePath "component" (langNameOf (some ['j', 's', 'x'])) 1,
        ⟨String.mk (trimJS "export default 2\n".data),
         mapLanguage (langNameOf (some ['j', 's', 'x']))
           (generateDefaultFilePath "component" (langNameOf (some ['j', 's', 'x'])) 1)⟩) :=
  ⟨by decide, by decide,
   c5_default_path_only_without_any_comment.1 contentD "component" 1
     (some ['j', 's', 'x'], "export default 2\n".data) (by decide) (by decide)⟩

/-- C5 counterexample: a block whose text contains no `File:`/`Path:` label
in any case, only the plain comment `// helper`, is NOT assigned the
synthesized default path — the regex's optional label makes any `//`
comment a path source, so the file lands at `helper`. -/
theorem c5_plain_comment_counterexample :
    containsCI fileLabel "const x = 1; // helper".data = false ∧
    containsCI pathLabel "const x = 1; // helper".data = false ∧
    parseCodeResponse contentC5 "service" =
      [("helper", ⟨"const x = 1; // helper", "js"⟩)] ∧
    generateDefaultFilePath "service" "js" 0 = "src/services/service0.js" := by
  refine ⟨by decide, by decide, by decide, by decide⟩

/-! ### Concrete evaluation helpers for the orchestrator fixtures -/

theorem mergeSort_single (a : SearchResult) : [a].mergeSort simDescLe = [a] :=
  List.mergeSort_of_sorted (List.pairwise_singleton _ a)

theorem simGtQ_tenth_of_gt (k : ℚ) (h : k > 1/100) : simGtQ k (1/10) = true := by
  rw [simGtQ, simKeyOf_pos_eval (1/10) (by norm_num)]
  exact decide_eq_true (by linarith [(by norm_num : (1 : ℚ)/10 * (1/10) = 1/100)])

theorem simGtQ_710_49100 : simGtQ (49/100) (7/10) = false := by
  rw [simGtQ, simKeyOf_pos_eval (7/10) (by norm_num)]
  simp only [decide_eq_false_iff_not]
  norm_num

theorem simGtQ_710_916 : simGtQ (9/16) (7/10) = true := by
  rw [simGtQ, simKeyOf_pos_eval (7/10) (by norm_num)]
  exact decide_eq_true (by norm_num)

theorem simGtQ_710_1 : simGtQ 1 (7/10) = true := by
  rw [simGtQ, simKeyOf_pos_eval (7/10) (by norm_num)]
  exact decide_eq_true (by norm_num)

theorem emb_A : generateEmbedding " component app react" = ⟨qA, 2⟩ := by
  have ht : tokenize " component app react" = ["component", "app", "react"] := by decide
  have hmap : vocabulary.map
      (fun w => ((List.count w ["component", "app", "react"] : ℕ) : ℚ)) = qA := by
    simp [vocabulary, qA, List.count_cons, List.count_nil]
  have hsum : sumSq qA = 2 := by
    norm_num [qA, sumSq]
  simp only [generateEmbedding, ht, hmap, hsum]
  norm_num

theorem calcsim_07 : calculateSimilarity ⟨qA, 2⟩ entry07.embedding = ⟨7, 100⟩ := by
  norm_num [calculateSimilarity, entry07, entryBase, rawVec, qA, sumSq, dotQ]

theorem calcsim_075 : calculateSimilarity ⟨qA, 2⟩ entry075.embedding = ⟨12, 256⟩ := by
  norm_num [calculateSimilarity, entry075, entryBase, rawVec, qA, sumSq, dotQ]

theorem calcsim_Hi : calculateSimilarity ⟨qA, 2⟩ entryHi.embedding = ⟨2, 4⟩ := by
  norm_num [calculateSimilarity, entryHi, entryBase, rawVec, qA, sumSq, dotQ]

theorem simkey_07 : (calculateSimilarity (generateEmbedding " component app react")
    entry07.embedding).key = 49/100 := by
  rw [emb_A, calcsim_07, Sim.key]
  rw [abs_of_pos (by norm_num : (0 : ℚ) < 7)]
  norm_num

theorem simkey_075 : (calculateSimilarity (generateEmbedding " component app react")
    entry075.embedding).key = 9/16 := by
  rw [emb_A, calcsim_075, Sim.key]
  rw [abs_of_pos (by norm_num : (0 : ℚ) < 12)]
  norm_num

theorem simkey_Hi : (calculateSimilarity (generateEmbedding " component app react")
    entryHi.embedding).key = 1 := by
  rw [emb_A, calcsim_Hi, Sim.key]
  rw [abs_of_pos (by norm_num : (0 : ℚ) < 2)]
  norm_num

theorem searchSimilarCode_single (e : KnowledgeEntry) (k : ℚ)
    (hm : matchesCriteria fA e = true)
    (hk : (calculateSimilarity (generateEmbedding " component app react") e.embedding).key = k)
    (hgt : simGtQ k (1/10) = true) :
    searchSimilarCode " component app react" fA [e] = [⟨e, k⟩] := by
  have hgt' : simGtQ k (10⁻¹) = true := by
    rw [← one_div]
    exact hgt
  simp only [searchSimilarCode, scannedEntries]
  simp [hm, hk, hgt', mergeSort_single]

theorem search_empty_kb (q : String) (f : Filters) : searchSimilarCode q f [] = [] := by
  simp [searchSimilarCode, scannedEntries, List.mergeSort_nil]

theorem searchKB_single (ctx : Ctx) (e : KnowledgeEntry) (k : ℚ)
    (hu : ctx.user = userA) (hkb : ctx.kb = [e])
    (hm : matchesCriteria fA e = true)
    (hk : (calculateSimilarity (generateEmbedding " component app react") e.embedding).key = k)
    (hgt : simGtQ k (1/10) = true) :
    searchKnowledgeBase ctx pdA reqA = [⟨e, k⟩] := by
  obtain ⟨env, user, be, so, kb⟩ := ctx
  simp only at hu hkb
  subst hu hkb
  show searchSimilarCode " component app react" fA [e] = [⟨e, k⟩]
  exact searchSimilarCode_single e k hm hk hgt

theorem searchKB_empty (ctx : Ctx) (pd : ProjectData) (req : RequestData)
    (hkb : ctx.kb = []) : searchKnowledgeBase ctx pd req = [] := by
  simp only [searchKnowledgeBase, hkb]
  exact search_empty_kb _ _

theorem searchKB_C3 : searchKnowledgeBase ctxC3 pdA reqA = [⟨entry07, 49/100⟩] :=
  searchKB_single ctxC3 entry07 (49/100) rfl rfl (by decide) simkey_07
    (simGtQ_tenth_of_gt _ (by norm_num))

theorem searchKB_Adapt : searchKnowledgeBase ctxAdapt pdA reqA = [⟨entry075, 9/16⟩] :=
  searchKB_single ctxAdapt entry075 (9/16) rfl rfl (by decide) simkey_075
    (simGtQ_tenth_of_gt _ (by norm_num))

theorem searchKB_Hi : searchKnowledgeBase ctxHi pdA reqA = [⟨entryHi, 1⟩] :=
  searchKB_single ctxHi entryHi 1 rfl rfl (by decide) simkey_Hi
    (simGtQ_tenth_of_gt _ (by norm_num))

theorem searchKB_C4 : searchKnowledgeBase ctxC4 pdA reqA = [⟨entryHi, 1⟩] :=
  searchKB_single ctxC4 entryHi 1 rfl rfl (by decide) simkey_Hi
    (simGtQ_tenth_of_gt _ (by norm_num))

/-! ### C3 -/

theorem selectGenProvider_mem (user : UserRec) (env : List (String × String)) (gp gk : String)
    (h : selectGenProvider user env = some (gp, gk)) : providerSupported gp = true := by
  unfold selectGenProvider at h
  obtain ⟨l1, p, l2, hsplit, hf, -⟩ := List.findSome?_eq_some_iff.mp h
  have hp : p ∈ fallbackOrder := by
    rw [hsplit]
    exact List.mem_append.mpr (Or.inr (List.mem_cons_self p l2))
  cases hmap : getUserApiKey user env p with
  | none => rw [hmap] at hf; simp at hf
  | some key =>
    rw [hmap] at hf
    have hpk : p = gp := by
      simpa using congrArg (fun o => (Option.map Prod.fst o).getD "") hf
    subst hpk
    simp only [providerSupported]
    exact List.elem_eq_true_of_mem hp

theorem simGeQ_710_49100 : simGeQ (49/100) (7/10) = true := by
  rw [simGeQ, simKeyOf_pos_eval (7/10) (by norm_num)]
  exact decide_eq_true (by norm_num)

/-- C3 (amended): with a credentialed default provider and a backend that
answers, `generateCode` takes the Adapt path iff the knowledge-base search
returns at least one result whose top similarity is STRICTLY greater than
`0.7` (the code compares with `>`, not `≥`); at exactly `0.7` it takes the
Generate path.  The 0.75 and empty-result instances of the claim hold. -/
theorem c3_adapt_iff_strict_gt (ctx : Ctx) (pd : ProjectData) (req : RequestData)
    (k gp gk : String)
    (hkey : getUserApiKey ctx.user ctx.env (defaultProvider ctx.user) = some k)
    (hdp : providerSupported (defaultProvider ctx.user) = true)
    (hsel : selectGenProvider ctx.user ctx.env = some (gp, gk))
    (hok : ∀ p s t, ∃ r, ctx.backends p s t = .ok r) :
    ∃ r : GenResult,
      (generateCode ctx pd req).result = .ok r ∧
      (r.source = "adapted" ∨ r.source = "generated") ∧
      (r.source = "adapted" ↔
        ∃ top rest, searchKnowledgeBase ctx pd req = top :: rest ∧
          simGtQ top.similarity (7/10) = true) := by
  have hgp : providerSupported gp = true := selectGenProvider_mem _ _ _ _ hsel
  cases hkres : searchKnowledgeBase ctx pd req with
  | nil =>
    obtain ⟨rg, hrg⟩ := hok gp (buildGenerationPrompt pd req []) "code_generation"
    refine ⟨{ files := parseCodeResponse rg.content req.type, source := "generated",
              originalEntry := none, provider := rg.provider, tokensUsed := rg.tokensUsed },
            ?_, Or.inr rfl, ?_⟩
    · simp only [generateCode, hkres, generateCodeGenPath, generateNewCode, hsel,
        callProvider, hgp, if_true, hrg]
    · constructor
      · intro h
        simp at h
      · rintro ⟨top, rest, habs, -⟩
        cases habs
  | cons top rest =>
    by_cases hgt : simGtQ top.similarity (7/10) = true
    · obtain ⟨ra, hra⟩ :=
        hok (defaultProvider ctx.user) (adaptationPrompt top.entry req pd) "code_adaptation"
      refine ⟨{ files := parseCodeResponse ra.content req.type, source := "adapted",
                originalEntry := some top.entry.id, provider := ra.provider,
                tokensUsed := ra.tokensUsed }, ?_, Or.inl rfl, ?_⟩
      · simp only [generateCode, hkres, hgt, if_true, adaptExistingCode, hkey,
          callProvider, hdp, hra]
      · exact ⟨fun _ => ⟨top, rest, rfl, hgt⟩, fun _ => rfl⟩
    · have hgt' : simGtQ top.similarity (7/10) = false := by simpa using hgt
      obtain ⟨rg, hrg⟩ := hok gp (buildGenerationPrompt pd req (top :: rest)) "code_generation"
      refine ⟨{ files := parseCodeResponse rg.content req.type, source := "generated",
                originalEntry := none, provider := rg.provider, tokensUsed := rg.tokensUsed },
              ?_, Or.inr rfl, ?_⟩
      · simp only [generateCode, hkres, hgt', Bool.false_eq_true, if_false,
          generateCodeGenPath, generateNewCode, hsel, callProvider, hgp, if_true, hrg]
      · constructor
        · intro h
          simp at h
        · rintro ⟨top', rest', heq, hgt2⟩
          injection heq with h1 h2
          subst h1
          exact absurd hgt2 (by simp [hgt'])

/-- C3 counterexample: a request whose best knowledge match has similarity
exactly `0.7` (so `≥ 0.7` holds) takes the Generate path, not Adapt. -/
theorem c3_threshold_boundary :
    searchKnowledgeBase ctxC3 pdA reqA = [⟨entry07, 49/100⟩] ∧
    simGeQ (49/100) (7/10) = true ∧
    (∃ r : GenResult, (generateCode ctxC3 pdA reqA).result = .ok r ∧ r.source = "generated") := by
  refine ⟨searchKB_C3, simGeQ_710_49100, ?_⟩
  refine ⟨{ files := parseCodeResponse "out" reqA.type, source := "generated",
            originalEntry := none, provider := "openai", tokensUsed := 1 }, ?_, rfl⟩
  have h1 : generateCode ctxC3 pdA reqA = generateCodeGenPath ctxC3 pdA reqA [⟨entry07, 49/100⟩] := by
    simp only [generateCode, searchKB_C3, simGtQ_710_49100, Bool.false_eq_true, if_false]
  rw [h1]
  rfl

/-- C3 witness: the 0.75-similarity instance goes through Adapt, and the
empty-result instance goes through Generate. -/
theorem c3_strict_witness :
    (∃ r : GenResult, (generateCode ctxAdapt pdA reqA).result = .ok r ∧ r.source = "adapted") ∧
    (∃ r : GenResult, (generateCode ctxEmpty pdA reqA).result = .ok r ∧ r.source = "generated") := by
  constructor
  · obtain ⟨r, hr, hor, hiff⟩ := c3_adapt_iff_strict_gt ctxAdapt pdA reqA "k" "openai" "k"
      (by decide) (by decide) (by decide) (fun p s t => ⟨⟨"out", p, 1⟩, rfl⟩)
    exact ⟨r, hr, hiff.mpr ⟨⟨entry075, 9/16⟩, [], searchKB_Adapt, simGtQ_710_916⟩⟩
  · obtain ⟨r, hr, hor, hiff⟩ := c3_adapt_iff_strict_gt ctxEmpty pdA reqA "k" "openai" "k"
      (by decide) (by decide) (by decide) (fun p s t => ⟨⟨"out", p, 1⟩, rfl⟩)
    rcases hor with h | h
    · refine absurd (hiff.mp h) ?_
      rintro ⟨top, rest, habs, -⟩
      rw [searchKB_empty ctxEmpty pdA reqA rfl] at habs
      cases habs
    · exact ⟨r, hr, h⟩

/-! ### C2 and C6 -/

theorem takeWhile_of_all {α} (p : α → Bool) :
    ∀ (l : List α), (∀ a ∈ l, p a = true) → l.takeWhile p = l := by
  intro l
  induction l with
  | nil => intro _; rfl
  | cons a t ih =>
    intro h
    rw [List.takeWhile_cons, if_pos (h a (List.mem_cons_self a t))]
    rw [ih (fun x hx => h x (List.mem_cons_of_mem a hx))]

theorem storeAux_stored_desc (ctx : Ctx) (pid : ℕ) (uid : String) (req : RequestData) :
    ∀ (files : List (String × FileEntry)) (kb stored : List KnowledgeEntry),
      (storeGeneratedCodeAux ctx pid uid req files kb stored).2.map
          (fun e => (e.codeType, e.description)) =
        stored.map (fun e => (e.codeType, e.description)) ++
          (files.takeWhile (fun pf => ctx.storeOk (storeDescription req pf.1))).map
            (fun pf => (req.type, storeDescription req pf.1)) := by
  intro files
  induction files with
  | nil => intro kb stored; simp [storeGeneratedCodeAux]
  | cons f rest ih =>
    intro kb stored
    obtain ⟨fp, fd⟩ := f
    by_cases h : ctx.storeOk (storeDescription req fp) = true
    · simp only [storeGeneratedCodeAux, h, if_true, List.takeWhile_cons]
      rw [ih]
      simp [storeCodeEntry]
    · have h' : ctx.storeOk (storeDescription req fp) = false := by simpa using h
      simp [storeGeneratedCodeAux, h', List.takeWhile_cons]

theorem storeAux_stored_desc_only (ctx : Ctx) (pid : ℕ) (uid : String) (req : RequestData) :
    ∀ (files : List (String × FileEntry)) (kb stored : List KnowledgeEntry),
      (storeGeneratedCodeAux ctx pid uid req files kb stored).2.map (fun e => e.description) =
        stored.map (fun e => e.description) ++
          (files.takeWhile (fun pf => ctx.storeOk (storeDescription req pf.1))).map
            (fun pf => storeDescription req pf.1) := by
  intro files
  induction files with
  | nil => intro kb stored; simp [storeGeneratedCodeAux]
  | cons f rest ih =>
    intro kb stored
    obtain ⟨fp, fd⟩ := f
    by_cases h : ctx.storeOk (storeDescription req fp) = true
    · simp only [storeGeneratedCodeAux, h, if_true, List.takeWhile_cons]
      rw [ih]
      simp [storeCodeEntry]
    · have h' : ctx.storeOk (storeDescription req fp) = false := by simpa using h
      simp [storeGeneratedCodeAux, h', List.takeWhile_cons]

theorem generateCode_genPath_of_decision_false (ctx : Ctx) (pd : ProjectData)
    (req : RequestData)
    (hdec : ∀ top rest, searchKnowledgeBase ctx pd req = top :: rest →
      simGtQ top.similarity (7/10) = false) :
    generateCode ctx pd req = generateCodeGenPath ctx pd req (searchKnowledgeBase ctx pd req) := by
  cases hkres : searchKnowledgeBase ctx pd req with
  | nil => simp [generateCode, hkres]
  | cons top rest =>
    have h := hdec top rest hkres
    simp [generateCode, hkres, h]

/-- C2 (amended): persistence happens only when `generateCode` takes the
top-level Generate path.  There, with the per-file saves succeeding, one
KnowledgeEntry is stored per file of the returned result, with `codeType`
the request type and description `type + ": " + path + " - " +
description`.  A successful Adapt run returns without storing anything (it
updates the matched entry's metrics instead), and so does the
adapt-failure fallback, even though its result has source `generated`. -/
theorem c2_persist_only_generate_path (ctx : Ctx) (pd : ProjectData) (req : RequestData)
    (r : GenResult) (calls : List CallRec)
    (hdec : ∀ top rest, searchKnowledgeBase ctx pd req = top :: rest →
      simGtQ top.similarity (7/10) = false)
    (hgen : generateNewCode ctx pd req (searchKnowledgeBase ctx pd req) = (.ok r, calls))
    (hstore : ∀ s, ctx.storeOk s = true) :
    (generateCode ctx pd req).result = .ok r ∧
    (generateCode ctx pd req).stored.map (fun e => (e.codeType, e.description)) =
      r.files.map (fun pf =>
        (req.type, req.type ++ ": " ++ pf.1 ++ " - " ++ jsOrStr req.description "")) := by
  rw [generateCode_genPath_of_decision_false ctx pd req hdec]
  simp only [generateCodeGenPath, hgen]
  constructor
  · trivial
  · show (storeGeneratedCode ctx pd.idNum ctx.user.uid req r.files).2.map
      (fun e => (e.codeType, e.description)) = _
    rw [storeGeneratedCode, storeAux_stored_desc]
    rw [takeWhile_of_all _ _ (fun a _ => hstore _)]
    simp [storeDescription]

/-- C2 counterexample: a run that takes the Adapt path returns a
one-file `adapted` result and stores nothing at all. -/
theorem c2_adapted_stores_nothing :
    (∃ r : GenResult, (generateCode ctxHi pdA reqA).result = .ok r ∧ r.source = "adapted" ∧
       r.files.length = 1) ∧
    (generateCode ctxHi pdA reqA).stored = [] := by
  have h1 : generateCode ctxHi pdA reqA =
      (match adaptExistingCode ctxHi pdA reqA ⟨entryHi, 1⟩ with
       | (res, calls, kb1) => ⟨res, calls, kb1, []⟩) := by
    simp only [generateCode, searchKB_Hi, simGtQ_710_1, if_true]
  refine ⟨⟨⟨parseCodeResponse "out" reqA.type, "adapted", some entryHi.id, "openai", 1⟩,
    ?_, rfl, ?_⟩, ?_⟩
  · rw [h1]
    rfl
  · decide
  · rw [h1]

/-- C2 witness: generate path with all saves succeeding — one stored entry
per file with the composed description. -/
theorem c2_persist_witness :
    (generateCode ctxEmpty pdA reqA).result = .ok rEmpty ∧
    (generateCode ctxEmpty pdA reqA).stored.map (fun e => (e.codeType, e.description)) =
      rEmpty.files.map (fun pf =>
        (reqA.type, reqA.type ++ ": " ++ pf.1 ++ " - " ++ jsOrStr reqA.description "")) :=
  c2_persist_only_generate_path ctxEmpty pdA reqA rEmpty callsEmpty
    (fun top rest h => by rw [searchKB_empty ctxEmpty pdA reqA rfl] at h; cases h)
    (by rw [searchKB_empty ctxEmpty pdA reqA rfl]; rfl)
    (fun _ => rfl)

/-- C6 (amended): a failing per-file save is swallowed, but it aborts the
whole store loop: exactly the files BEFORE the first failure are stored
(the failing file and all later ones are skipped), and the already-produced
GenerationResult is still returned unchanged. -/
theorem c6_store_failure_aborts_rest (ctx : Ctx) (pd : ProjectData) (req : RequestData)
    (r : GenResult) (calls : List CallRec)
    (hdec : ∀ top rest, searchKnowledgeBase ctx pd req = top :: rest →
      simGtQ top.similarity (7/10) = false)
    (hgen : generateNewCode ctx pd req (searchKnowledgeBase ctx pd req) = (.ok r, calls)) :
    (generateCode ctx pd req).result = .ok r ∧
    (generateCode ctx pd req).stored.map (fun e => e.description) =
      (r.files.takeWhile (fun pf => ctx.storeOk (storeDescription req pf.1))).map
        (fun pf => storeDescription req pf.1) := by
  rw [generateCode_genPath_of_decision_false ctx pd req hdec]
  simp only [generateCodeGenPath, hgen]
  constructor
  · trivial
  · show (storeGeneratedCode ctx pd.idNum ctx.user.uid req r.files).2.map
      (fun e => e.description) = _
    rw [storeGeneratedCode, storeAux_stored_desc_only]
    simp

/-- C6 counterexample: the backend returns two files `a.js`, `b.js`;
saving `a.js` fails while saving `b.js` would succeed — yet nothing at all
is stored (`b.js` is NOT stored), while the two-file result is still
returned. -/
theorem c6_second_file_not_stored :
    ctxC6.storeOk "component: a.js - d" = false ∧
    ctxC6.storeOk "component: b.js - d" = true ∧
    (∃ r : GenResult, (generateCode ctxC6 pdA reqD).result = .ok r ∧
       r.files.map Prod.fst = ["a.js", "b.js"]) ∧
    (generateCode ctxC6 pdA reqD).stored = [] := by
  have h1 : generateCode ctxC6 pdA reqD = generateCodeGenPath ctxC6 pdA reqD [] := by
    simp [generateCode, searchKB_empty ctxC6 pdA reqD rfl]
  refine ⟨rfl, rfl, ⟨⟨parseCodeResponse contentC6 reqD.type, "generated", none, "openai", 1⟩,
    ?_, ?_⟩, ?_⟩
  · rw [h1]
    rfl
  · decide
  · rw [h1]
    rfl

/-- C6 witness: in the `ctxC6` world the stored descriptions are exactly
those of the files before the first failing save — here none. -/
theorem c6_abort_witness :
    (generateCode ctxC6 pdA reqD).result = .ok rC6 ∧
    (generateCode ctxC6 pdA reqD).stored.map (fun e => e.description) =
      (rC6.files.takeWhile (fun pf => ctxC6.storeOk (storeDescription reqD pf.1))).map
        (fun pf => storeDescription reqD pf.1) :=
  c6_store_failure_aborts_rest ctxC6 pdA reqD rC6 callsC6
    (fun top rest h => by rw [searchKB_empty ctxC6 pdA reqD rfl] at h; cases h)
    (by rw [searchKB_empty ctxC6 pdA reqD rfl]; rfl)

/-! ### C4 -/

/-- C4: when the knowledge search produces a high-similarity top hit but
the backend call of the Adapt step throws, `generateCode` does not fail for
that reason: it falls back to the Generate step with empty (`[]`) prior
knowledge context — visible in the call trace, whose generation prompt is
built from the empty context — and (when the generation succeeds) the
returned result has source `generated`; nothing is persisted on this path. -/
theorem c4_adapt_failure_falls_back (ctx : Ctx) (pd : ProjectData) (req : RequestData)
    (top : SearchResult) (rest : List SearchResult) (k gp gk : String)
    (hkres : searchKnowledgeBase ctx pd req = top :: rest)
    (htop : simGtQ top.similarity (7/10) = true)
    (hkey : getUserApiKey ctx.user ctx.env (defaultProvider ctx.user) = some k)
    (hdp : providerSupported (defaultProvider ctx.user) = true)
    (hsel : selectGenProvider ctx.user ctx.env = some (gp, gk))
    (hada : ∀ p s, ∃ e, ctx.backends p s "code_adaptation" = .error e)
    (hgen : ∀ p s, ∃ r, ctx.backends p s "code_generation" = .ok r) :
    ∃ r : GenResult,
      (generateCode ctx pd req).result = .ok r ∧
      r.source = "generated" ∧
      (generateCode ctx pd req).calls =
        [⟨defaultProvider ctx.user, adaptationPrompt top.entry req pd, "code_adaptation"⟩,
         ⟨gp, buildGenerationPrompt pd req [], "code_generation"⟩] ∧
      (generateCode ctx pd req).stored = [] := by
  have hgp : providerSupported gp = true := selectGenProvider_mem _ _ _ _ hsel
  obtain ⟨er, her⟩ := hada (defaultProvider ctx.user) (adaptationPrompt top.entry req pd)
  obtain ⟨rg, hrg⟩ := hgen gp (buildGenerationPrompt pd req [])
  refine ⟨{ files := parseCodeResponse rg.content req.type, source := "generated",
            originalEntry := none, provider := rg.provider, tokensUsed := rg.tokensUsed },
          ?_, rfl, ?_, ?_⟩
  · simp only [generateCode, hkres, htop, if_true, adaptExistingCode, hkey, callProvider,
      hdp, her, generateNewCode, hsel, hgp, hrg]
  · simp only [generateCode, hkres, htop, if_true, adaptExistingCode, hkey, callProvider,
      hdp, her, generateNewCode, hsel, hgp, hrg]
    simp
  · simp only [generateCode, hkres, htop, if_true, adaptExistingCode, hkey, callProvider,
      hdp, her, generateNewCode, hsel, hgp, hrg]

/-- C4 witness: concrete world with a perfect match, a throwing adaptation
backend, and a working generation backend. -/
theorem c4_fallback_witness :
    ∃ r : GenResult,
      (generateCode ctxC4 pdA reqA).result = .ok r ∧
      r.source = "generated" ∧
      (generateCode ctxC4 pdA reqA).calls =
        [⟨defaultProvider ctxC4.user, adaptationPrompt entryHi reqA pdA, "code_adaptation"⟩,
         ⟨"openai", buildGenerationPrompt pdA reqA [], "code_generation"⟩] ∧
      (generateCode ctxC4 pdA reqA).stored = [] :=
  c4_adapt_failure_falls_back ctxC4 pdA reqA ⟨entryHi, 1⟩ [] "k" "openai" "k"
    searchKB_C4 simGtQ_710_1 rfl rfl rfl
    (fun _p _s => ⟨"boom", rfl⟩) (fun p _s => ⟨⟨"out", p, 1⟩, rfl⟩)

/-! ### C1 -/

/-- C1 (the code contradicts the claim and its own comment): the user's
configured default provider `claude` has an available credential, yet the
provider-selection loop of `generateNewCode` — whose comment reads "Try
fallback providers if primary fails" but which runs unconditionally,
overwriting the dead initial lookup of the default provider's key — picks
`openai`, the first provider of the fallback order with a key, and the
generation call goes to `openai`.  The no-credential part of the claim does
hold: with no key anywhere the selection is empty and `generateNewCode`
throws the no-credential error with no network call attempted (empty call
trace). -/
theorem c1_generate_uses_fallback_head :
    defaultProvider userC1 = "claude" ∧
    getUserApiKey userC1 [] "claude" = some "ck" ∧
    selectGenProvider userC1 [] = some ("openai", "ok") ∧
    (generateNewCode ctxC1 pdA reqA []).2.map (fun c => c.provider) = ["openai"] ∧
    selectGenProvider userNone [] = none ∧
    generateNewCode ⟨[], userNone, backendsOk, fun _ => true, []⟩ pdA reqA [] =
      (.error "No available AI provider API keys found", []) :=
  ⟨rfl, rfl, rfl, rfl, rfl, rfl⟩
